import Mathlib

/-!
A shallow embedding of the IQR outlier-removal routine of
`04_EDA/06_Outlier.ipynb`:

```
Q1 = titanic['age'].quantile(0.25)
Q3 = titanic['age'].quantile(0.75)
IQR = Q3 - Q1
lower_bound = Q1 - 1.5 * IQR
upper_bound = Q3 + 1.5 * IQR
titanic_no_outliers = titanic[(titanic['age'] >= lower_bound) & (titanic['age'] <= upper_bound)]
```

A table is an ordered list of rows over a fixed column list.  Cells are
numbers (modelled exactly as rationals), strings, booleans, or the missing
marker (pandas `NaN`).  `Series.quantile` drops missing values, sorts the
remaining ones and linearly interpolates at position `q * (n - 1)`
(the numpy/pandas default `interpolation='linear'`); on zero observations it
returns `NaN` (here `none`).  Column access on an absent name raises
`KeyError`; `quantile` on non-numeric data raises `TypeError`; both are
modelled as typed errors.  The boolean-mask filter keeps a row exactly when
both comparisons with the bounds evaluate to `True`; any comparison
involving `NaN` (a missing cell value or a `NaN` bound) is `False`.
-/

namespace Outlier

/-- A cell of a table: a numeric value, a string, a boolean, or the missing
marker (`NaN`). -/
inductive Value where
  | num (q : ℚ)
  | str (s : String)
  | boolean (b : Bool)
  | missing
deriving DecidableEq

/-- A data frame: a fixed list of column names and an ordered list of rows;
row `r` holds the cell for column `j` at position `j`. -/
structure Table where
  cols : List String
  rows : List (List Value)
deriving DecidableEq

/-- The exceptions the script can raise: `KeyError` on a missing column and
`TypeError` when quantiles are taken over non-numeric data. -/
inductive Err where
  | columnNotFound
  | nonNumericColumn
deriving DecidableEq

/-- Position of column `c` in the table header (`none` models `KeyError`). -/
def colIndex (t : Table) (c : String) : Option Nat :=
  t.cols.findIdx? (fun s => s == c)

/-- The cell of row `r` at column position `i` (missing when the row is
short). -/
def cellAt (r : List Value) (i : Nat) : Value := r.getD i Value.missing

/-- The column at position `i`: the series `titanic['age']`. -/
def colValues (t : Table) (i : Nat) : List Value :=
  t.rows.map (fun r => cellAt r i)

/-- Numeric reading of a cell: numbers are themselves, booleans coerce to
`1`/`0` as in pandas, missing is `NaN` (`none`), strings are not numeric. -/
def toNumeric : Value → Except Unit (Option ℚ)
  | Value.num q => Except.ok (some q)
  | Value.boolean b => Except.ok (some (if b then 1 else 0))
  | Value.missing => Except.ok none
  | Value.str _ => Except.error ()

/-- The non-missing numeric observations of a column, in row order; a string
cell anywhere makes the whole column non-numeric (`TypeError`). -/
def numericValues : List Value → Except Unit (List ℚ)
  | [] => Except.ok []
  | v :: vs =>
    match toNumeric v, numericValues vs with
    | Except.error e, _ => Except.error e
    | Except.ok _, Except.error e => Except.error e
    | Except.ok none, Except.ok rest => Except.ok rest
    | Except.ok (some q), Except.ok rest => Except.ok (q :: rest)

/-- The observations in nondecreasing order. -/
def sortedOf (xs : List ℚ) : List ℚ := List.insertionSort (· ≤ ·) xs

/-- Linear interpolation of a sorted list `s` at fractional position `h`:
with `i = ⌊h⌋` and `g = h - i`, the value `s[i] + g * (s[i+1] - s[i])`
(when `i` is the last index, `g = 0` and the value is `s[i]`). -/
def interpAt (s : List ℚ) (h : ℚ) : ℚ :=
  s.getD (⌊h⌋).toNat 0 +
    (h - ((⌊h⌋).toNat : ℚ)) *
      (s.getD ((⌊h⌋).toNat + 1) (s.getD (⌊h⌋).toNat 0) - s.getD (⌊h⌋).toNat 0)

/-- `Series.quantile q` over the non-missing observations `xs`: `NaN`
(`none`) on an empty series, otherwise linear interpolation of the sorted
observations at position `q * (n - 1)`. -/
def quantile (q : ℚ) (xs : List ℚ) : Option ℚ :=
  if xs = [] then none
  else some (interpAt (sortedOf xs) (q * ((xs.length : ℚ) - 1)))

/-- `(lower_bound, upper_bound) = (Q1 - 1.5*IQR, Q3 + 1.5*IQR)`; `NaN`
(`none`) when the quartiles are `NaN`. -/
def boundsOf (xs : List ℚ) : Option (ℚ × ℚ) :=
  match quantile (1/4) xs, quantile (3/4) xs with
  | some q1, some q3 => some (q1 - 3/2 * (q3 - q1), q3 + 3/2 * (q3 - q1))
  | _, _ => none

/-- The boolean mask `(v >= lower_bound) & (v <= upper_bound)` for one cell:
`True` only when the cell reads as an actual number and both bounds are
actual numbers; every comparison with `NaN` is `False`. -/
def keep (lb ub : Option ℚ) (v : Value) : Bool :=
  match toNumeric v, lb, ub with
  | Except.ok (some x), some l, some u => decide (l ≤ x) && decide (x ≤ u)
  | _, _, _ => false

/-- `t[mask]`: the new table of the rows whose cell at column `i` passes the
mask, in their original order. -/
def filterWithBounds (t : Table) (i : Nat) (lb ub : Option ℚ) : Table :=
  ⟨t.cols, t.rows.filter (fun r => keep lb ub (cellAt r i))⟩

/-- The whole routine as one function of the table and the column name:
locate the column, extract its numeric observations, derive the IQR bounds
and keep the rows inside them. -/
def outlierFilter (t : Table) (c : String) : Except Err Table :=
  match colIndex t c with
  | none => Except.error Err.columnNotFound
  | some i =>
    match numericValues (colValues t i) with
    | Except.error _ => Except.error Err.nonNumericColumn
    | Except.ok xs =>
      let bds := boundsOf xs
      Except.ok (filterWithBounds t i (bds.map Prod.fst) (bds.map Prod.snd))

/-! ### The notebook cell as a sequence of bindings

`runCell` mirrors the cell statement by statement: each line binds a fresh
variable; no line rebinds `titanic`, and the boolean-mask indexing builds a
new frame.  `CellEnv` is the interpreter state after the cell ran. -/

/-- The variables bound by the cell, in the order the script assigns them. -/
structure CellEnv where
  titanic : Table
  Q1 : Option ℚ
  Q3 : Option ℚ
  IQR : Option ℚ
  lower_bound : Option ℚ
  upper_bound : Option ℚ
  titanic_no_outliers : Table
deriving DecidableEq

/-- Binary arithmetic on scalars that may be `NaN`: any operand `NaN` makes
the result `NaN`, as in `Q3 - Q1` on empty data. -/
def nanMap2 (f : ℚ → ℚ → ℚ) : Option ℚ → Option ℚ → Option ℚ
  | some a, some b => some (f a b)
  | _, _ => none

/-- Run the cell on a loaded table: bind `Q1`, `Q3`, `IQR`, `lower_bound`,
`upper_bound` and `titanic_no_outliers` exactly as the script does. -/
def runCell (t : Table) : Except Err CellEnv :=
  match colIndex t "age" with
  | none => Except.error Err.columnNotFound
  | some i =>
    match numericValues (colValues t i) with
    | Except.error _ => Except.error Err.nonNumericColumn
    | Except.ok xs =>
      let q1 := quantile (1/4) xs
      let q3 := quantile (3/4) xs
      let iqr := nanMap2 (fun a b => a - b) q3 q1
      let lb := nanMap2 (fun a d => a - 3/2 * d) q1 iqr
      let ub := nanMap2 (fun a d => a + 3/2 * d) q3 iqr
      Except.ok ⟨t, q1, q3, iqr, lb, ub, filterWithBounds t i lb ub⟩

/-! ### Concrete tables used by the witnesses and counterexamples -/

/-- The spec's concrete example: a one-column table of ages. -/
def ageTable : Table :=
  ⟨["age"], [[Value.num 22], [Value.num 38], [Value.num 26], [Value.num 35],
             [Value.num 35], [Value.num 2], [Value.num 80]]⟩

/-- The age observations, in row order. -/
def ages : List ℚ := [22, 38, 26, 35, 35, 2, 80]

/-- A heavy-tailed column on which a second filtering pass removes a further
row: the first pass drops `20`, the second drops `10`. -/
def heavyTable : Table :=
  ⟨["v"], [[Value.num 0], [Value.num 0], [Value.num 0], [Value.num 0],
           [Value.num 10], [Value.num 20]]⟩

/-- `heavyTable` after one filtering pass. -/
def heavyOnce : Table :=
  ⟨["v"], [[Value.num 0], [Value.num 0], [Value.num 0], [Value.num 0],
           [Value.num 10]]⟩

/-- `heavyTable` after two filtering passes. -/
def heavyTwice : Table :=
  ⟨["v"], [[Value.num 0], [Value.num 0], [Value.num 0], [Value.num 0]]⟩

/-- A table whose target column is entirely missing. -/
def allMissingTable : Table := ⟨["age"], [[Value.missing], [Value.missing]]⟩

/-- A table whose only column holds strings. -/
def strTable : Table := ⟨["name"], [[Value.str "a"], [Value.str "b"]]⟩

/-- A table mixing missing and numeric cells in the target column. -/
def mixedTable : Table :=
  ⟨["age"], [[Value.num 10], [Value.missing], [Value.num 12], [Value.num 11]]⟩

/-- A table with a declared column and no rows at all. -/
def emptyRowsTable : Table := ⟨["age"], []⟩

/-- The numeric observations of `constTable`, in row order. -/
def constVals : List ℚ := [5, 5, 5, 5, 5, 5, 5, 5, 1005]

/-- A degenerate column: eight rows of the constant `5` and one row of
`1005 = 5 + 1000`. -/
def constTable : Table :=
  ⟨["v"], [[Value.num 5], [Value.num 5], [Value.num 5], [Value.num 5],
           [Value.num 5], [Value.num 5], [Value.num 5], [Value.num 5],
           [Value.num 1005]]⟩

/-- The interpreter state after the cell runs on `ageTable`. -/
def ageCellEnv : CellEnv :=
  ⟨ageTable, some 24, some (73/2), some (25/2), some (21/4), some (221/4),
   ⟨["age"], [[Value.num 22], [Value.num 38], [Value.num 26], [Value.num 35],
              [Value.num 35]]⟩⟩

/-! ## General lemmas -/

lemma toNatOfNat (n : ℕ) :
    (Int.toNat (no_index (OfNat.ofNat n))) = OfNat.ofNat n := rfl

/-- A `NaN` lower bound rejects every cell. -/
lemma keep_none_left (ub : Option ℚ) (v : Value) : keep none ub v = false := by
  cases v <;> rfl

/-- A `NaN` upper bound rejects every cell. -/
lemma keep_none_right (lb : Option ℚ) (v : Value) : keep lb none v = false := by
  cases v <;> cases lb <;> rfl

/-- A missing cell is rejected whatever the bounds are. -/
lemma keep_missing (lb ub : Option ℚ) : keep lb ub Value.missing = false := by
  cases lb <;> cases ub <;> rfl

/-- A numeric cell passes the mask exactly when it lies in the inclusive
interval `[l, u]`. -/
lemma keep_num_iff (l u x : ℚ) :
    keep (some l) (some u) (Value.num x) = true ↔ l ≤ x ∧ x ≤ u := by
  simp [keep, toNumeric]

/-- A cell that passes the mask is not the missing marker. -/
lemma keep_ne_missing {lb ub : Option ℚ} {v : Value}
    (h : keep lb ub v = true) : v ≠ Value.missing := by
  intro hv
  rw [hv, keep_missing] at h
  exact Bool.false_ne_true h

/-- Success unfolding: when the column exists and its observations extract,
the routine returns the mask-filtered table for the IQR bounds. -/
lemma outlierFilter_eq (t : Table) (c : String) {i : Nat} {xs : List ℚ}
    (hcol : colIndex t c = some i)
    (hnum : numericValues (colValues t i) = Except.ok xs) :
    outlierFilter t c =
      Except.ok (filterWithBounds t i ((boundsOf xs).map Prod.fst)
        ((boundsOf xs).map Prod.snd)) := by
  rw [outlierFilter, hcol]
  simp only [hnum]

/-- Inversion: a successful run determines a column position and extracted
observations, and the output is the mask-filtered table. -/
lemma outlierFilter_ok_inv {t : Table} {c : String} {out : Table}
    (h : outlierFilter t c = Except.ok out) :
    ∃ i xs, colIndex t c = some i ∧
      numericValues (colValues t i) = Except.ok xs ∧
      out = filterWithBounds t i ((boundsOf xs).map Prod.fst)
        ((boundsOf xs).map Prod.snd) := by
  cases hcol : colIndex t c with
  | none => rw [outlierFilter, hcol] at h; exact absurd h (by simp)
  | some i =>
    cases hnum : numericValues (colValues t i) with
    | error e =>
      rw [outlierFilter, hcol] at h
      simp only [hnum] at h
      exact Except.noConfusion h
    | ok xs =>
      refine ⟨i, xs, rfl, hnum, ?_⟩
      rw [outlierFilter_eq t c hcol hnum] at h
      injection h with h
      exact h.symm

/-- `getD` at an in-range position is the list element there. -/
lemma getD_in_range {s : List ℚ} {n : ℕ} (d : ℚ) (h : n < s.length) :
    s.getD n d = s[n] := by
  simp [List.getD_eq_getElem?_getD, List.getElem?_eq_getElem h]

/-- `getD` past the end is the default. -/
lemma getD_out_of_range {s : List ℚ} {n : ℕ} (d : ℚ) (h : s.length ≤ n) :
    s.getD n d = d := by
  simp [List.getD_eq_getElem?_getD, List.getElem?_eq_none h]

/-- In a nondecreasing list, positional access with default `0` is monotone
on in-range positions. -/
lemma sorted_getD_mono {s : List ℚ} (hs : List.Sorted (· ≤ ·) s) {i j : ℕ}
    (hij : i ≤ j) (hj : j < s.length) : s.getD i 0 ≤ s.getD j 0 := by
  have hi : i < s.length := lt_of_le_of_lt hij hj
  rw [getD_in_range 0 hi, getD_in_range 0 hj]
  have h := hs.rel_get_of_le (Fin.mk_le_mk.mpr hij : (⟨i, hi⟩ : Fin s.length) ≤ ⟨j, hj⟩)
  simpa using h

/-- In a nondecreasing list, the upper interpolation endpoint at `i`
(falling back onto the lower one past the end) is at least the lower one. -/
lemma getD_le_getD_succ {s : List ℚ} (hs : List.Sorted (· ≤ ·) s) (i : ℕ) :
    s.getD i 0 ≤ s.getD (i + 1) (s.getD i 0) := by
  by_cases h : i + 1 < s.length
  · rw [getD_in_range (s.getD i 0) h]
    rw [← getD_in_range 0 h]
    exact sorted_getD_mono hs (Nat.le_succ i) h
  · rw [getD_out_of_range (s.getD i 0) (Nat.le_of_not_lt h)]

/-- Monotonicity of linear interpolation over a nondecreasing list: moving
the fractional position to the right cannot decrease the interpolated
value. -/
lemma interpAt_mono {s : List ℚ} (hs : List.Sorted (· ≤ ·) s) {g₁ g₂ : ℚ}
    (h0 : 0 ≤ g₁) (h12 : g₁ ≤ g₂) (hn : g₂ ≤ (s.length : ℚ) - 1) :
    interpAt s g₁ ≤ interpAt s g₂ := by
  have h0' : 0 ≤ g₂ := le_trans h0 h12
  have hf1 : (0:ℤ) ≤ ⌊g₁⌋ := Int.floor_nonneg.mpr h0
  have hf2 : (0:ℤ) ≤ ⌊g₂⌋ := Int.floor_nonneg.mpr h0'
  simp only [interpAt]
  set i₁ : ℕ := (⌊g₁⌋).toNat with hdefi₁
  set i₂ : ℕ := (⌊g₂⌋).toNat with hdefi₂
  have hle1 : (i₁ : ℚ) ≤ g₁ := by
    have h := Int.floor_le g₁
    rw [← Int.toNat_of_nonneg hf1] at h
    exact_mod_cast h
  have hlt1 : g₁ < (i₁ : ℚ) + 1 := by
    have h := Int.lt_floor_add_one g₁
    rw [← Int.toNat_of_nonneg hf1] at h
    exact_mod_cast h
  have hle2 : (i₂ : ℚ) ≤ g₂ := by
    have h := Int.floor_le g₂
    rw [← Int.toNat_of_nonneg hf2] at h
    exact_mod_cast h
  have hmono : i₁ ≤ i₂ := Int.toNat_le_toNat (Int.floor_mono h12)
  have hi2n : i₂ < s.length := by
    have h1 : (i₂ : ℚ) + 1 ≤ (s.length : ℚ) := by linarith
    exact_mod_cast h1
  have hi1n : i₁ < s.length := lt_of_le_of_lt hmono hi2n
  have hab1 : s.getD i₁ 0 ≤ s.getD (i₁ + 1) (s.getD i₁ 0) := getD_le_getD_succ hs i₁
  have hab2 : s.getD i₂ 0 ≤ s.getD (i₂ + 1) (s.getD i₂ 0) := getD_le_getD_succ hs i₂
  rcases Nat.lt_or_ge i₁ i₂ with hlt | hge
  · have h11n : i₁ + 1 < s.length := lt_of_le_of_lt (Nat.succ_le_of_lt hlt) hi2n
    have hb1 : s.getD (i₁ + 1) (s.getD i₁ 0) = s.getD (i₁ + 1) 0 := by
      rw [getD_in_range (s.getD i₁ 0) h11n, getD_in_range 0 h11n]
    have hstep1 : s.getD i₁ 0 + (g₁ - (i₁ : ℚ)) *
        (s.getD (i₁ + 1) (s.getD i₁ 0) - s.getD i₁ 0) ≤ s.getD (i₁ + 1) (s.getD i₁ 0) := by
      have hg1 : g₁ - (i₁ : ℚ) ≤ 1 := by linarith
      have h := mul_le_mul_of_nonneg_right hg1 (sub_nonneg.mpr hab1)
      linarith
    have hstep2 : s.getD (i₁ + 1) (s.getD i₁ 0) ≤ s.getD i₂ 0 := by
      rw [hb1]
      exact sorted_getD_mono hs (Nat.succ_le_of_lt hlt) hi2n
    have hstep3 : s.getD i₂ 0 ≤ s.getD i₂ 0 + (g₂ - (i₂ : ℚ)) *
        (s.getD (i₂ + 1) (s.getD i₂ 0) - s.getD i₂ 0) := by
      have h := mul_nonneg (by linarith : (0:ℚ) ≤ g₂ - (i₂ : ℚ))
        (sub_nonneg.mpr hab2)
      linarith
    linarith
  · have heq : i₁ = i₂ := le_antisymm hmono hge
    rw [← heq]
    have h := mul_le_mul_of_nonneg_right
      (sub_le_sub_right h12 ((i₁ : ℚ))) (sub_nonneg.mpr hab1)
    linarith

/-- A quartile is `NaN` exactly on an empty series. -/
lemma quantile_eq_none_iff (q : ℚ) (xs : List ℚ) :
    quantile q xs = none ↔ xs = [] := by
  by_cases h : xs = [] <;> simp [quantile, h]

/-- On a nonempty series a quartile always exists. -/
lemma quantile_eq_some {xs : List ℚ} (hxs : xs ≠ []) (q : ℚ) :
    quantile q xs = some (interpAt (sortedOf xs) (q * ((xs.length : ℚ) - 1))) := by
  simp [quantile, hxs]

/-- Quartiles at ordered probabilities in `[0, 1]` are ordered. -/
lemma quantile_le_quantile {xs : List ℚ} (hxs : xs ≠ []) {p q : ℚ}
    (hp : 0 ≤ p) (hpq : p ≤ q) (hq : q ≤ 1) {a b : ℚ}
    (ha : quantile p xs = some a) (hb : quantile q xs = some b) : a ≤ b := by
  rw [quantile_eq_some hxs p] at ha
  rw [quantile_eq_some hxs q] at hb
  injection ha with ha
  injection hb with hb
  rw [← ha, ← hb]
  have hlen : (sortedOf xs).length = xs.length :=
    (List.perm_insertionSort _ xs).length_eq
  have hs : List.Sorted (· ≤ ·) (sortedOf xs) := List.sorted_insertionSort _ xs
  have h1 : (1 : ℚ) ≤ (xs.length : ℚ) := by
    have h := List.length_pos.mpr hxs
    exact_mod_cast h
  apply interpAt_mono hs
  · exact mul_nonneg hp (by linarith)
  · exact mul_le_mul_of_nonneg_right hpq (by linarith)
  · rw [hlen]
    have h := mul_le_mul_of_nonneg_right hq (by linarith : (0:ℚ) ≤ (xs.length : ℚ) - 1)
    linarith

/-- The bounds when both quartiles exist. -/
lemma boundsOf_eq_some {xs : List ℚ} {q1 q3 : ℚ}
    (h1 : quantile (1/4) xs = some q1) (h3 : quantile (3/4) xs = some q3) :
    boundsOf xs = some (q1 - 3/2 * (q3 - q1), q3 + 3/2 * (q3 - q1)) := by
  rw [boundsOf, h1, h3]

/-- On an empty series the bounds are `NaN`. -/
lemma boundsOf_nil : boundsOf ([] : List ℚ) = none := by
  simp [boundsOf, quantile]

/-- A `NaN` lower bound filters away every row. -/
lemma filterWithBounds_none_left (t : Table) (i : Nat) (ub : Option ℚ) :
    filterWithBounds t i none ub = ⟨t.cols, []⟩ := by
  simp [filterWithBounds, keep_none_left]

/-! ## Concrete evaluations -/

lemma ageTable_col : colIndex ageTable "age" = some 0 := by
  norm_num [colIndex, ageTable, List.findIdx?]

lemma ageTable_num : numericValues (colValues ageTable 0) = Except.ok ages := by
  norm_num [numericValues, colValues, cellAt, toNumeric, ageTable, ages]

lemma ages_q1 : quantile (1/4) ages = some 24 := by
  norm_num [quantile, sortedOf, interpAt, toNatOfNat, ages,
    List.insertionSort, List.orderedInsert]
  all_goals simp

lemma ages_q3 : quantile (3/4) ages = some (73/2) := by
  norm_num [quantile, sortedOf, interpAt, toNatOfNat, ages,
    List.insertionSort, List.orderedInsert]
  all_goals simp

lemma ages_bounds : boundsOf ages = some (21/4, 221/4) := by
  rw [boundsOf, ages_q1, ages_q3]
  norm_num

lemma age_filter_eval : filterWithBounds ageTable 0 (some (21/4)) (some (221/4)) =
    ⟨["age"], [[Value.num 22], [Value.num 38], [Value.num 26],
               [Value.num 35], [Value.num 35]]⟩ := by
  norm_num [filterWithBounds, keep, toNumeric, ageTable, cellAt,
    List.filter_cons, decide_eq_true_eq, Bool.and_eq_true]

lemma ageTable_run : outlierFilter ageTable "age" =
    Except.ok ⟨["age"], [[Value.num 22], [Value.num 38], [Value.num 26],
                         [Value.num 35], [Value.num 35]]⟩ := by
  rw [outlierFilter_eq ageTable "age" ageTable_col ageTable_num, ages_bounds]
  simp only [Option.map_some']
  rw [age_filter_eval]

lemma heavy_col : colIndex heavyTable "v" = some 0 := by
  norm_num [colIndex, heavyTable, List.findIdx?]

lemma heavy_num : numericValues (colValues heavyTable 0) =
    Except.ok [0, 0, 0, 0, 10, 20] := by
  norm_num [numericValues, colValues, cellAt, toNumeric, heavyTable]

lemma heavy_q1 : quantile (1/4) [0, 0, 0, 0, 10, 20] = some 0 := by
  norm_num [quantile, sortedOf, interpAt, toNatOfNat,
    List.insertionSort, List.orderedInsert]
  all_goals simp

lemma heavy_q3 : quantile (3/4) [0, 0, 0, 0, 10, 20] = some (15/2) := by
  norm_num [quantile, sortedOf, interpAt, toNatOfNat,
    List.insertionSort, List.orderedInsert]
  all_goals simp

lemma heavy_bounds : boundsOf [0, 0, 0, 0, 10, 20] = some (-45/4, 75/4) := by
  rw [boundsOf, heavy_q1, heavy_q3]
  norm_num

lemma heavy_run1 : outlierFilter heavyTable "v" = Except.ok heavyOnce := by
  rw [outlierFilter_eq heavyTable "v" heavy_col heavy_num, heavy_bounds]
  simp only [Option.map_some']
  norm_num [filterWithBounds, keep, toNumeric, heavyTable, heavyOnce, cellAt,
    List.filter_cons, decide_eq_true_eq, Bool.and_eq_true]

lemma heavyOnce_col : colIndex heavyOnce "v" = some 0 := by
  norm_num [colIndex, heavyOnce, List.findIdx?]

lemma heavyOnce_num : numericValues (colValues heavyOnce 0) =
    Except.ok [0, 0, 0, 0, 10] := by
  norm_num [numericValues, colValues, cellAt, toNumeric, heavyOnce]

lemma heavyOnce_q1 : quantile (1/4) [0, 0, 0, 0, 10] = some 0 := by
  norm_num [quantile, sortedOf, interpAt, toNatOfNat,
    List.insertionSort, List.orderedInsert]
  all_goals simp

lemma heavyOnce_q3 : quantile (3/4) [0, 0, 0, 0, 10] = some 0 := by
  norm_num [quantile, sortedOf, interpAt, toNatOfNat,
    List.insertionSort, List.orderedInsert]
  all_goals simp

lemma heavyOnce_bounds : boundsOf [0, 0, 0, 0, 10] = some (0, 0) := by
  rw [boundsOf, heavyOnce_q1, heavyOnce_q3]
  norm_num

lemma heavy_run2 : outlierFilter heavyOnce "v" = Except.ok heavyTwice := by
  rw [outlierFilter_eq heavyOnce "v" heavyOnce_col heavyOnce_num, heavyOnce_bounds]
  simp only [Option.map_some']
  norm_num [filterWithBounds, keep, toNumeric, heavyOnce, heavyTwice, cellAt,
    List.filter_cons, decide_eq_true_eq, Bool.and_eq_true]

lemma mixed_col : colIndex mixedTable "age" = some 0 := by
  norm_num [colIndex, mixedTable, List.findIdx?]

lemma mixed_num : numericValues (colValues mixedTable 0) =
    Except.ok [10, 12, 11] := by
  norm_num [numericValues, colValues, cellAt, toNumeric, mixedTable]

lemma mixed_q1 : quantile (1/4) [10, 12, 11] = some (21/2) := by
  norm_num [quantile, sortedOf, interpAt, toNatOfNat,
    List.insertionSort, List.orderedInsert]
  all_goals simp

lemma mixed_q3 : quantile (3/4) [10, 12, 11] = some (23/2) := by
  norm_num [quantile, sortedOf, interpAt, toNatOfNat,
    List.insertionSort, List.orderedInsert]
  all_goals simp

lemma mixed_bounds : boundsOf [10, 12, 11] = some (9, 13) := by
  rw [boundsOf, mixed_q1, mixed_q3]
  norm_num

lemma mixed_run : outlierFilter mixedTable "age" =
    Except.ok ⟨["age"], [[Value.num 10], [Value.num 12], [Value.num 11]]⟩ := by
  rw [outlierFilter_eq mixedTable "age" mixed_col mixed_num, mixed_bounds]
  simp only [Option.map_some']
  norm_num [filterWithBounds, keep, toNumeric, mixedTable, cellAt,
    List.filter_cons, decide_eq_true_eq, Bool.and_eq_true]

lemma str_col : colIndex strTable "name" = some 0 := by
  norm_num [colIndex, strTable, List.findIdx?]

lemma str_notfound : colIndex strTable "zzz" = none := by
  norm_num [colIndex, strTable, List.findIdx?]
  all_goals simp

lemma str_num_err : numericValues (colValues strTable 0) = Except.error () := by
  norm_num [numericValues, colValues, cellAt, toNumeric, strTable]

lemma allMissing_col : colIndex allMissingTable "age" = some 0 := by
  norm_num [colIndex, allMissingTable, List.findIdx?]

lemma allMissing_num : numericValues (colValues allMissingTable 0) =
    Except.ok [] := by
  norm_num [numericValues, colValues, cellAt, toNumeric, allMissingTable]

lemma emptyRows_col : colIndex emptyRowsTable "age" = some 0 := by
  norm_num [colIndex, emptyRowsTable, List.findIdx?]

lemma emptyRows_num : numericValues (colValues emptyRowsTable 0) =
    Except.ok [] := by
  norm_num [numericValues, colValues, cellAt, toNumeric, emptyRowsTable]

lemma const_col : colIndex constTable "v" = some 0 := by
  norm_num [colIndex, constTable, List.findIdx?]

lemma const_num : numericValues (colValues constTable 0) = Except.ok constVals := by
  norm_num [numericValues, colValues, cellAt, toNumeric, constTable, constVals]

lemma const_q1 : quantile (1/4) constVals = some 5 := by
  norm_num [quantile, sortedOf, interpAt, toNatOfNat, constVals,
    List.insertionSort, List.orderedInsert]
  all_goals simp

lemma const_q3 : quantile (3/4) constVals = some 5 := by
  norm_num [quantile, sortedOf, interpAt, toNatOfNat, constVals,
    List.insertionSort, List.orderedInsert]
  all_goals simp

/-- The cell's step-by-step `lower_bound` agrees with the packaged first
bound. -/
lemma boundsOf_fst (xs : List ℚ) : (boundsOf xs).map Prod.fst =
    nanMap2 (fun a d => a - 3/2 * d) (quantile (1/4) xs)
      (nanMap2 (fun a b => a - b) (quantile (3/4) xs) (quantile (1/4) xs)) := by
  by_cases h : xs = []
  · subst h
    simp [boundsOf_nil, quantile, nanMap2]
  · rw [boundsOf_eq_some (quantile_eq_some h (1/4)) (quantile_eq_some h (3/4)),
      quantile_eq_some h (1/4), quantile_eq_some h (3/4)]
    simp [nanMap2]

/-- The cell's step-by-step `upper_bound` agrees with the packaged second
bound. -/
lemma boundsOf_snd (xs : List ℚ) : (boundsOf xs).map Prod.snd =
    nanMap2 (fun a d => a + 3/2 * d) (quantile (3/4) xs)
      (nanMap2 (fun a b => a - b) (quantile (3/4) xs) (quantile (1/4) xs)) := by
  by_cases h : xs = []
  · subst h
    simp [boundsOf_nil, quantile, nanMap2]
  · rw [boundsOf_eq_some (quantile_eq_some h (1/4)) (quantile_eq_some h (3/4)),
      quantile_eq_some h (1/4), quantile_eq_some h (3/4)]
    simp [nanMap2]

lemma runCell_age : runCell ageTable = Except.ok ageCellEnv := by
  rw [runCell, ageTable_col]
  simp only [ageTable_num, ages_q1, ages_q3]
  rw [ageCellEnv]
  norm_num [nanMap2]
  rw [← age_filter_eval]

/-! ## Claims -/

/-- C1 (counterexample): on ages `[22, 38, 26, 35, 35, 2, 80]` the routine
returns only the rows `22, 38, 26, 35, 35`; the row with age `2` is NOT in
the output, refuting the claim that it is retained. -/
theorem c1_cex_age2_dropped :
    outlierFilter ageTable "age" =
      Except.ok ⟨["age"], [[Value.num 22], [Value.num 38], [Value.num 26],
                           [Value.num 35], [Value.num 35]]⟩ ∧
    [Value.num 2] ∉ [[Value.num 22], [Value.num 38], [Value.num 26],
                     [Value.num 35], [Value.num 35]] :=
  ⟨ageTable_run, by decide⟩

/-- C1 (amended): for ages `[22, 38, 26, 35, 35, 2, 80]` the interpolation
rule gives `Q1 = 24`, `Q3 = 36.5`, bounds `(5.25, 55.25) = (21/4, 221/4)`;
the filter drops the row with age `80` AND the row with age `2`, retaining
exactly the rows `22, 38, 26, 35, 35`. -/
theorem c1_age_example :
    quantile (1/4) ages = some 24 ∧ quantile (3/4) ages = some (73/2) ∧
    boundsOf ages = some (21/4, 221/4) ∧
    outlierFilter ageTable "age" =
      Except.ok ⟨["age"], [[Value.num 22], [Value.num 38], [Value.num 26],
                           [Value.num 35], [Value.num 35]]⟩ :=
  ⟨ages_q1, ages_q3, ages_bounds, ageTable_run⟩

/-- C2 (counterexample): the filter is not idempotent.  On the column
`[0, 0, 0, 0, 10, 20]` the first pass drops `20`; re-filtering the output
recomputes the quartiles on the surviving data (`IQR` becomes `0`) and
drops `10` as well, so the second pass does not return its input. -/
theorem c2_cex_second_pass_removes_row :
    outlierFilter heavyTable "v" = Except.ok heavyOnce ∧
    outlierFilter heavyOnce "v" = Except.ok heavyTwice ∧
    heavyTwice ≠ heavyOnce :=
  ⟨heavy_run1, heavy_run2, by decide⟩

/-- C2 (amended): the row-filtering step with FIXED bounds is idempotent —
applying the mask filter again with the same bounds to its own output
returns that output unchanged.  Idempotence of the whole routine fails
because the quartiles are recomputed on the filtered data. -/
theorem c2_fixed_bounds_idempotent (t : Table) (i : Nat) (lb ub : Option ℚ) :
    filterWithBounds (filterWithBounds t i lb ub) i lb ub =
      filterWithBounds t i lb ub := by
  simp [filterWithBounds, List.filter_filter, Bool.and_self]

/-- C3 (counterexample): an all-missing target column does NOT surface a
typed failure; the routine succeeds with an empty result, refuting the
claim that `EmptyColumn` fails fast. -/
theorem c3_cex_empty_column_no_error :
    outlierFilter allMissingTable "age" = Except.ok ⟨["age"], []⟩ := by
  rw [outlierFilter_eq allMissingTable "age" allMissing_col allMissing_num,
    boundsOf_nil]
  simp only [Option.map_none']
  rw [filterWithBounds_none_left]
  rfl

/-- C3 (amended): a missing column and a non-numeric column are surfaced as
typed failures with no partial result, detected before any bound is
derived or row filtered; an empty column (zero non-missing observations)
is NOT a failure: the routine returns an empty table. -/
theorem c3_error_taxonomy :
    (∀ (t : Table) (c : String), colIndex t c = none →
      outlierFilter t c = Except.error Err.columnNotFound) ∧
    (∀ (t : Table) (c : String) (i : Nat), colIndex t c = some i →
      numericValues (colValues t i) = Except.error () →
      outlierFilter t c = Except.error Err.nonNumericColumn) ∧
    (∀ (t : Table) (c : String) (i : Nat), colIndex t c = some i →
      numericValues (colValues t i) = Except.ok [] →
      outlierFilter t c = Except.ok ⟨t.cols, []⟩) := by
  refine ⟨fun t c h => ?_, fun t c i hcol hnum => ?_, fun t c i hcol hnum => ?_⟩
  · rw [outlierFilter, h]
  · rw [outlierFilter, hcol]
    simp only [hnum]
  · rw [outlierFilter_eq t c hcol hnum, boundsOf_nil]
    simp only [Option.map_none']
    rw [filterWithBounds_none_left]

/-- C3 (witness): the three behaviours at concrete tables. -/
theorem c3_error_taxonomy_witness :
    outlierFilter strTable "zzz" = Except.error Err.columnNotFound ∧
    outlierFilter strTable "name" = Except.error Err.nonNumericColumn ∧
    outlierFilter allMissingTable "age" =
      Except.ok ⟨allMissingTable.cols, []⟩ :=
  ⟨c3_error_taxonomy.1 strTable "zzz" str_notfound,
   c3_error_taxonomy.2.1 strTable "name" 0 str_col str_num_err,
   c3_error_taxonomy.2.2 allMissingTable "age" 0 allMissing_col allMissing_num⟩

/-- C4: missing values are excluded from the quartile computation (removing
the missing markers from a column leaves the extracted observations, hence
the quartiles, unchanged), and no row of the output has a missing value in
the target column. -/
theorem c4_missing_excluded :
    (∀ vs : List Value,
      numericValues (vs.filter (fun v => !decide (v = Value.missing))) =
        numericValues vs) ∧
    (∀ (t : Table) (c : String) (i : Nat) (out : Table),
      colIndex t c = some i → outlierFilter t c = Except.ok out →
      ∀ r ∈ out.rows, cellAt r i ≠ Value.missing) := by
  constructor
  · intro vs
    induction vs with
    | nil => rfl
    | cons v vs ih =>
      cases h : numericValues vs with
      | error e => cases v <;> simp [numericValues, toNumeric, ih, h]
      | ok rest => cases v <;> simp [numericValues, toNumeric, ih, h]
  · intro t c i out hcol hrun r hr
    obtain ⟨j, xs, hcol2, hnum, hout⟩ := outlierFilter_ok_inv hrun
    rw [hcol] at hcol2
    injection hcol2 with hij
    subst hij
    subst hout
    have hmem : keep ((boundsOf xs).map Prod.fst) ((boundsOf xs).map Prod.snd)
        (cellAt r i) = true := (List.mem_filter.mp hr).2
    exact keep_ne_missing hmem

/-- C4 (witness): at the mixed table, the missing marker does not change
the extracted observations, and the surviving row `[10]` is non-missing. -/
theorem c4_missing_excluded_witness :
    numericValues (List.filter (fun v => !decide (v = Value.missing))
      [Value.num 10, Value.missing, Value.num 12, Value.num 11]) =
      numericValues [Value.num 10, Value.missing, Value.num 12, Value.num 11] ∧
    cellAt [Value.num 10] 0 ≠ Value.missing :=
  ⟨c4_missing_excluded.1 [Value.num 10, Value.missing, Value.num 12, Value.num 11],
   c4_missing_excluded.2 mixedTable "age" 0
     ⟨["age"], [[Value.num 10], [Value.num 12], [Value.num 11]]⟩
     mixed_col mixed_run [Value.num 10] (by simp)⟩

/-- C5: when the bounds exist, the output is exactly the input rows whose
cell passes the mask, and a numeric cell passes the mask precisely when its
value lies in the inclusive interval `[lower_bound, upper_bound]` — so
boundary-equal values are retained and a value is dropped exactly when it
is strictly outside. -/
theorem c5_inclusive_range (t : Table) (c : String) (i : Nat) (xs : List ℚ)
    (lb ub : ℚ) (hcol : colIndex t c = some i)
    (hnum : numericValues (colValues t i) = Except.ok xs)
    (hb : boundsOf xs = some (lb, ub)) :
    outlierFilter t c = Except.ok
      ⟨t.cols, t.rows.filter (fun r => keep (some lb) (some ub) (cellAt r i))⟩ ∧
    (∀ x : ℚ, keep (some lb) (some ub) (Value.num x) = true ↔ lb ≤ x ∧ x ≤ ub) := by
  constructor
  · rw [outlierFilter_eq t c hcol hnum, hb]
    simp only [Option.map_some']
    rfl
  · exact fun x => keep_num_iff lb ub x

/-- C5 (witness): at the age table, with bounds `(21/4, 221/4)`; a cell
whose value equals the lower bound exactly passes the mask. -/
theorem c5_inclusive_range_witness :
    outlierFilter ageTable "age" = Except.ok
      ⟨ageTable.cols, ageTable.rows.filter
        (fun r => keep (some (21/4)) (some (221/4)) (cellAt r 0))⟩ ∧
    keep (some (21/4)) (some (221/4)) (Value.num (21/4)) = true := by
  have h := c5_inclusive_range ageTable "age" 0 ages (21/4) (221/4)
    ageTable_col ageTable_num ages_bounds
  exact ⟨h.1, (h.2 (21/4)).mpr (by norm_num)⟩

/-- C6: a successful run returns a table with the same columns whose row
list is a subsequence of the input rows: the number of rows cannot grow,
every output row is (in all fields) a row of the input, and the surviving
rows keep their relative input order. -/
theorem c6_subsequence (t : Table) (c : String) (out : Table)
    (h : outlierFilter t c = Except.ok out) :
    out.cols = t.cols ∧ out.rows.Sublist t.rows ∧
      out.rows.length ≤ t.rows.length ∧ ∀ r ∈ out.rows, r ∈ t.rows := by
  obtain ⟨i, xs, hcol, hnum, hout⟩ := outlierFilter_ok_inv h
  subst hout
  refine ⟨rfl, List.filter_sublist _, (List.filter_sublist _).length_le,
    fun r hr => List.mem_of_mem_filter hr⟩

/-- C6 (witness): the age-table output is a subsequence of its input. -/
theorem c6_subsequence_witness :
    (⟨["age"], [[Value.num 22], [Value.num 38], [Value.num 26],
                [Value.num 35], [Value.num 35]]⟩ : Table).cols = ageTable.cols ∧
    (⟨["age"], [[Value.num 22], [Value.num 38], [Value.num 26],
                [Value.num 35], [Value.num 35]]⟩ : Table).rows.Sublist
        ageTable.rows ∧
    (⟨["age"], [[Value.num 22], [Value.num 38], [Value.num 26],
                [Value.num 35], [Value.num 35]]⟩ : Table).rows.length ≤
        ageTable.rows.length ∧
    ∀ r ∈ (⟨["age"], [[Value.num 22], [Value.num 38], [Value.num 26],
                      [Value.num 35], [Value.num 35]]⟩ : Table).rows,
      r ∈ ageTable.rows :=
  c6_subsequence ageTable "age" _ ageTable_run

/-- C7: on a target column with at least one non-missing numeric value both
quartiles exist and the computed quantities satisfy
`lower_bound ≤ Q1 ≤ Q3 ≤ upper_bound` with `IQR = Q3 - Q1 ≥ 0`. -/
theorem c7_bound_ordering (t : Table) (c : String) (i : Nat) (xs : List ℚ)
    (_hcol : colIndex t c = some i)
    (_hnum : numericValues (colValues t i) = Except.ok xs) (hxs : xs ≠ []) :
    ∃ q1 q3 lb ub, quantile (1/4) xs = some q1 ∧ quantile (3/4) xs = some q3 ∧
      boundsOf xs = some (lb, ub) ∧ 0 ≤ q3 - q1 ∧
      lb ≤ q1 ∧ q1 ≤ q3 ∧ q3 ≤ ub := by
  have h1 := quantile_eq_some hxs (1/4)
  have h3 := quantile_eq_some hxs (3/4)
  have h13 := quantile_le_quantile hxs (by norm_num) (by norm_num : (1:ℚ)/4 ≤ 3/4)
    (by norm_num) h1 h3
  exact ⟨_, _, _, _, h1, h3, boundsOf_eq_some h1 h3, by linarith, by linarith,
    h13, by linarith⟩

/-- C7 (witness): the bound ordering at the age table. -/
theorem c7_bound_ordering_witness :
    ∃ q1 q3 lb ub, quantile (1/4) ages = some q1 ∧
      quantile (3/4) ages = some q3 ∧
      boundsOf ages = some (lb, ub) ∧ 0 ≤ q3 - q1 ∧
      lb ≤ q1 ∧ q1 ≤ q3 ∧ q3 ≤ ub :=
  c7_bound_ordering ageTable "age" 0 ages ageTable_col ageTable_num
    (by simp [ages])

/-- C8: if the quartiles of the target column both equal a constant `v` and
every cell of the column is either `v` or `v + 1000`, the bounds collapse
to the single point `v` and the output is exactly the rows with value `v`:
all constant rows are retained and every `v + 1000` row is dropped. -/
theorem c8_degenerate (t : Table) (c : String) (i : Nat) (xs : List ℚ)
    (v : ℚ) (hcol : colIndex t c = some i)
    (hnum : numericValues (colValues t i) = Except.ok xs)
    (h1 : quantile (1/4) xs = some v) (h3 : quantile (3/4) xs = some v)
    (hcells : ∀ r ∈ t.rows, cellAt r i = Value.num v ∨
      cellAt r i = Value.num (v + 1000)) :
    outlierFilter t c = Except.ok
      ⟨t.cols, t.rows.filter (fun r => decide (cellAt r i = Value.num v))⟩ := by
  rw [outlierFilter_eq t c hcol hnum, boundsOf_eq_some h1 h3]
  simp only [Option.map_some', sub_self, mul_zero, sub_zero, add_zero]
  rw [filterWithBounds]
  refine congrArg Except.ok ?_
  rw [Table.mk.injEq]
  refine ⟨rfl, List.filter_congr ?_⟩
  intro r hr
  have hne : v + 1000 ≠ v := by linarith
  have hnle : ¬ (v + 1000 ≤ v) := by linarith
  rcases hcells r hr with h | h <;> rw [h] <;> simp [keep, toNumeric, hne, hnle]

/-- C8 (witness): eight rows of `5` and one row of `1005`; `Q1 = Q3 = 5`
and the filter keeps exactly the `5` rows. -/
theorem c8_degenerate_witness :
    outlierFilter constTable "v" = Except.ok
      ⟨constTable.cols, constTable.rows.filter
        (fun r => decide (cellAt r 0 = Value.num 5))⟩ :=
  c8_degenerate constTable "v" 0 constVals 5 const_col const_num const_q1
    const_q3 (by intro r hr; fin_cases hr <;> norm_num [cellAt])

/-- C9: the cell never mutates its input: after a successful run the
variable `titanic` still holds the input table unchanged, and
`titanic_no_outliers` is a separately-built new table — the one the
filtering routine returns for that input. -/
theorem c9_no_mutation (t : Table) (e : CellEnv)
    (h : runCell t = Except.ok e) :
    e.titanic = t ∧ outlierFilter t "age" = Except.ok e.titanic_no_outliers := by
  cases hcol : colIndex t "age" with
  | none =>
    rw [runCell, hcol] at h
    exact Except.noConfusion h
  | some i =>
    cases hnum : numericValues (colValues t i) with
    | error u =>
      rw [runCell, hcol] at h
      simp only [hnum] at h
      exact Except.noConfusion h
    | ok xs =>
      rw [runCell, hcol] at h
      simp only [hnum] at h
      injection h with h
      subst h
      refine ⟨rfl, ?_⟩
      rw [outlierFilter_eq t "age" hcol hnum, boundsOf_fst, boundsOf_snd]

/-- C9 (witness): running the cell on the age table leaves `titanic` equal
to the input and produces the filtered table. -/
theorem c9_no_mutation_witness :
    runCell ageTable = Except.ok ageCellEnv ∧ ageCellEnv.titanic = ageTable ∧
      outlierFilter ageTable "age" = Except.ok ageCellEnv.titanic_no_outliers :=
  ⟨runCell_age, (c9_no_mutation ageTable ageCellEnv runCell_age).1,
    (c9_no_mutation ageTable ageCellEnv runCell_age).2⟩

/-- C10: a target column with zero non-missing numeric observations raises
no error: the quartiles and both bounds are `NaN` (`none`), the range test
fails for every cell, and the result is an empty table with the input's
columns. -/
theorem c10_empty_column_empty_table (t : Table) (c : String) (i : Nat)
    (hcol : colIndex t c = some i)
    (hnum : numericValues (colValues t i) = Except.ok []) :
    quantile (1/4) ([] : List ℚ) = none ∧
    quantile (3/4) ([] : List ℚ) = none ∧
    boundsOf ([] : List ℚ) = none ∧
    (∀ v : Value, keep none none v = false) ∧
    outlierFilter t c = Except.ok ⟨t.cols, []⟩ := by
  refine ⟨by simp [quantile], by simp [quantile], boundsOf_nil,
    fun v => keep_none_left none v, ?_⟩
  rw [outlierFilter_eq t c hcol hnum, boundsOf_nil]
  simp only [Option.map_none']
  rw [filterWithBounds_none_left]

/-- C10 (witness): a declared `age` column with no rows at all yields the
empty table without error. -/
theorem c10_empty_column_witness :
    quantile (1/4) ([] : List ℚ) = none ∧
    boundsOf ([] : List ℚ) = none ∧
    keep none none (Value.num 7) = false ∧
    outlierFilter emptyRowsTable "age" =
      Except.ok ⟨emptyRowsTable.cols, []⟩ := by
  have h := c10_empty_column_empty_table emptyRowsTable "age" 0
    emptyRows_col emptyRows_num
  exact ⟨h.1, h.2.2.1, h.2.2.2.1 (Value.num 7), h.2.2.2.2⟩

end Outlier
